import Mathlib

/-!
Verification of the x-bookmark digest pipeline core.

A shallow embedding of the Python source of the repository (modules
`bookmark_loader.py`, `utils.py`, `search_enricher.py`, `summarizer.py`,
`slack_notifier.py`, `main.py`) together with theorems settling the spec
claims about it.

Conventions of the embedding:
* Python strings are Lean `String`s; character-level operations work on
  `List Char`.
* Python `int(...)` applied to a string is modelled by `pyIntOfString`
  (returning `none` where Python raises `ValueError`).
* Fallible Python code (code that may raise) is modelled with `Except`;
  the exception type `PyErr` names the Python exception classes that the
  relevant code paths can produce.
* External services (the Anthropic completion API, the DuckDuckGo search,
  the Slack webhook) are modelled as explicit oracle parameters giving the
  outcome of each call; the embedding covers what the repository does with
  those outcomes.
-/

namespace XBookmark

/-! ## Python primitives -/

/-- ASCII whitespace as stripped by Python's `str.strip()` and skipped by
`int(...)` (Python additionally strips some rarely used Unicode whitespace;
the claims only involve ASCII input). -/
def pyIsSpace (c : Char) : Bool :=
  c = ' ' || c = '\t' || c = '\n' || c = '\x0d' || c = '\x0b' || c = '\x0c'

/-- `str.strip()` on a character list: drop whitespace from both ends. -/
def pyStripChars (cs : List Char) : List Char :=
  ((cs.dropWhile pyIsSpace).reverse.dropWhile pyIsSpace).reverse

/-- `str.strip()`. -/
def pyStrip (s : String) : String :=
  String.mk (pyStripChars s.toList)

/-- Decimal digit run as accepted by Python `int(...)`: digits with single
underscores allowed strictly between digits (PEP 515).  Returns the digit
values, or `none` if the run is malformed or the remaining characters are
not exhausted. -/
def pyDigitRun : List Char → Option (List Nat)
  | [] => some []
  | '_' :: rest =>
    match rest with
    | c :: rest2 =>
      if c.isDigit then (pyDigitRun rest2).map (fun ds => (c.toNat - 48) :: ds)
      else none
    | [] => none
  | c :: rest =>
    if c.isDigit then (pyDigitRun rest).map (fun ds => (c.toNat - 48) :: ds)
    else none

/-- Numeric value of a digit-value list (most significant first). -/
def digitsToNat (ds : List Nat) : Nat :=
  ds.foldl (fun acc d => 10 * acc + d) 0

/-- Python `int(s)` for a string argument: optional surrounding whitespace,
optional sign, then a digit run (underscores between digits allowed).
`none` models `ValueError`. -/
def pyIntOfString (s : String) : Option Int :=
  let cs := pyStripChars s.toList
  let signed : Bool × List Char :=
    match cs with
    | '+' :: rest => (false, rest)
    | '-' :: rest => (true, rest)
    | rest => (false, rest)
  match signed.2 with
  | c :: rest =>
    if c.isDigit then
      match pyDigitRun rest with
      | some ds =>
        let n : Nat := digitsToNat ((c.toNat - 48) :: ds)
        some (if signed.1 then -(n : Int) else (n : Int))
      | none => none
    else none
  | [] => none

/-! ## `bookmark_loader.py`: `save_processed_ids` and its sort key -/

/-- `_sort_key` (nested in `save_processed_ids`): numeric value of the id,
with fallback `0` for ids that do not parse (`except ValueError: return 0`). -/
def pySortKey (s : String) : Int :=
  (pyIntOfString s).getD 0

/-- The ceiling on the persisted processed-id set (`[:100000]`). -/
def PROCESSED_IDS_CAP : Nat := 100000

/-- `sorted(all_ids, key=_sort_key, reverse=True)`: stable descending sort
by `_sort_key`. -/
def sortIdsDesc (l : List String) : List String :=
  l.mergeSort (fun a b => decide (pySortKey b ≤ pySortKey a))

/-- The list persisted by `save_processed_ids`, as a function of the union
`list(existing | ids)` (the iteration order of the Python set union is
arbitrary; everything proved below holds for every order). -/
def savedIds (allIds : List String) : List String :=
  (sortIdsDesc allIds).take PROCESSED_IDS_CAP

/-- `filter_new_bookmarks` keeps the ids not in the processed set
(order-preserving); stated here on plain ids, reused by the pipeline model. -/
def filterNewIds (ids : List String) (processed : List String) : List String :=
  ids.filter (fun i => !processed.contains i)

/-! ## `load_bookmarks`: input-format detection -/

/-- `first_char = f.read(1).strip()`: the first character of the content,
stripped — so the empty string whenever the file is empty or starts with a
whitespace character. -/
def firstCharStripped (content : String) : String :=
  match content.toList with
  | [] => ""
  | c :: _ => if pyIsSpace c then "" else String.mk [c]

/-- The format decision of `load_bookmarks`
(`is_csv = ext == ".csv" or (first_char not in ("[", "\x7b") and first_char != "")`,
where `\x7b` stands for the opening curly brace).
`ext` is `os.path.splitext(filepath)[1].lower()`. -/
def loadFormatIsCsv (ext : String) (content : String) : Bool :=
  ext = ".csv" ||
    (let fc := firstCharStripped content
     decide (fc ≠ "[") && decide (fc ≠ "\x7b") && decide (fc ≠ ""))

/-- The detection rule in the words of the spec sentence behind claim C5:
structured (JSON) parsing is selected if and only if the first
non-whitespace character of the content is `[` or `{`. -/
def specSelectsJson (content : String) : Bool :=
  match content.toList.dropWhile pyIsSpace with
  | '[' :: _ => true
  | '{' :: _ => true
  | _ => false

/-! ## List slicing into chunks

`[lst[i:i+size] for i in range(0, len(lst), size)]` — used with
`size = CHUNK_SIZE = 20` in `summarizer.py` and with
`size = MAX_BLOCKS_PER_MESSAGE - 2 = 48` in `slack_notifier.py`
(both sizes are positive; the `n = 0` branch below is unreachable
in the source, where `range(0, len, 0)` would raise). -/
def chunkListGo (n : Nat) : Nat → List α → List (List α)
  | _, [] => []
  | 0, _ :: _ => []
  | fuel + 1, x :: xs => (x :: xs).take n :: chunkListGo n fuel ((x :: xs).drop n)

def chunkList (n : Nat) (l : List α) : List (List α) :=
  chunkListGo n l.length l

/-! ## JSON values and `json.loads`

`summarizer.py` and `search_enricher.py` feed completion-service output to
`json.loads`.  The parser below follows the JSON grammar accepted by
Python's `json` module (strict mode), including the non-standard constants
`NaN`, `Infinity` and `-Infinity` that `json.loads` accepts by default:
`none` models `json.JSONDecodeError`.  Numbers (and those constants) keep
their raw lexeme (no claim depends on numeric values). -/

inductive Json where
  | null
  | bool (b : Bool)
  | num (raw : String)
  | str (s : String)
  | arr (items : List Json)
  | obj (members : List (String × Json))

/-- Whitespace skipped between JSON tokens (`json.decoder.WHITESPACE`). -/
def isJsonWs (c : Char) : Bool :=
  c = ' ' || c = '\t' || c = '\n' || c = '\x0d'

def backtickChar : Char := Char.ofNat 96

def hexDigitVal (c : Char) : Option Nat :=
  if c.isDigit then some (c.toNat - 48)
  else if 'a' ≤ c && c ≤ 'f' then some (c.toNat - 87)
  else if 'A' ≤ c && c ≤ 'F' then some (c.toNat - 55)
  else none

/-- Body of a JSON string after the opening quote: decoded characters plus
the remaining input after the closing quote.  Escapes as in the JSON
grammar; raw control characters are rejected (Python strict mode). -/
def parseStringChars : List Char → Option (List Char × List Char)
  | [] => none
  | '"' :: rest => some ([], rest)
  | '\\' :: '"' :: r => (parseStringChars r).map (fun p => ('"' :: p.1, p.2))
  | '\\' :: '\\' :: r => (parseStringChars r).map (fun p => ('\\' :: p.1, p.2))
  | '\\' :: '/' :: r => (parseStringChars r).map (fun p => ('/' :: p.1, p.2))
  | '\\' :: 'b' :: r => (parseStringChars r).map (fun p => ('\x08' :: p.1, p.2))
  | '\\' :: 'f' :: r => (parseStringChars r).map (fun p => ('\x0c' :: p.1, p.2))
  | '\\' :: 'n' :: r => (parseStringChars r).map (fun p => ('\n' :: p.1, p.2))
  | '\\' :: 'r' :: r => (parseStringChars r).map (fun p => ('\x0d' :: p.1, p.2))
  | '\\' :: 't' :: r => (parseStringChars r).map (fun p => ('\t' :: p.1, p.2))
  | '\\' :: 'u' :: h1 :: h2 :: h3 :: h4 :: r =>
    match hexDigitVal h1, hexDigitVal h2, hexDigitVal h3, hexDigitVal h4 with
    | some a, some b, some c, some d =>
      (parseStringChars r).map
        (fun p => (Char.ofNat (((a * 16 + b) * 16 + c) * 16 + d) :: p.1, p.2))
    | _, _, _, _ => none
  | '\\' :: _ => none
  | c :: rest =>
    if c.toNat < 32 then none
    else (parseStringChars rest).map (fun p => (c :: p.1, p.2))

/-- Optional fraction part of a JSON number (raw characters). -/
def parseJsonFrac (cs : List Char) : Option (List Char × List Char) :=
  match cs with
  | '.' :: r =>
    let p := r.span Char.isDigit
    if p.1 = [] then none else some ('.' :: p.1, p.2)
  | _ => some ([], cs)

/-- Optional exponent part of a JSON number (raw characters). -/
def parseJsonExp (cs : List Char) : Option (List Char × List Char) :=
  match cs with
  | 'e' :: r => parseJsonExpRest 'e' r
  | 'E' :: r => parseJsonExpRest 'E' r
  | _ => some ([], cs)
where
  parseJsonExpRest (e : Char) (r : List Char) : Option (List Char × List Char) :=
    let signed : List Char × List Char :=
      match r with
      | '+' :: r2 => (['+'], r2)
      | '-' :: r2 => (['-'], r2)
      | r2 => ([], r2)
    let p := signed.2.span Char.isDigit
    if p.1 = [] then none else some (e :: signed.1 ++ p.1, p.2)

/-- A JSON number lexeme: `-?(0|[1-9][0-9]*)(\.[0-9]+)?([eE][+-]?[0-9]+)?`. -/
def parseJsonNumber (cs : List Char) : Option (List Char × List Char) := do
  let signed : List Char × List Char :=
    match cs with
    | '-' :: r => (['-'], r)
    | r => ([], r)
  let intPart : Option (List Char × List Char) :=
    match signed.2 with
    | '0' :: r => some (['0'], r)
    | c :: r =>
      if c.isDigit then
        let p := r.span Char.isDigit
        some (c :: p.1, p.2)
      else none
    | [] => none
  let (ip, r1) ← intPart
  let (fp, r2) ← parseJsonFrac r1
  let (ep, r3) ← parseJsonExp r2
  some (signed.1 ++ ip ++ fp ++ ep, r3)

mutual

/-- One JSON value (leading whitespace allowed), returning the rest of the
input.  `fuel` only guards termination; `pyJsonLoads` supplies enough fuel
that it is never exhausted on accepted input. -/
def parseJsonVal : Nat → List Char → Option (Json × List Char)
  | 0, _ => none
  | fuel + 1, cs =>
    match cs.dropWhile isJsonWs with
    | 'n' :: 'u' :: 'l' :: 'l' :: rest => some (.null, rest)
    | 't' :: 'r' :: 'u' :: 'e' :: rest => some (.bool true, rest)
    | 'f' :: 'a' :: 'l' :: 's' :: 'e' :: rest => some (.bool false, rest)
    | 'N' :: 'a' :: 'N' :: rest => some (.num "NaN", rest)
    | 'I' :: 'n' :: 'f' :: 'i' :: 'n' :: 'i' :: 't' :: 'y' :: rest =>
      some (.num "Infinity", rest)
    | '-' :: 'I' :: 'n' :: 'f' :: 'i' :: 'n' :: 'i' :: 't' :: 'y' :: rest =>
      some (.num "-Infinity", rest)
    | '"' :: rest =>
      (parseStringChars rest).map (fun p => (.str (String.mk p.1), p.2))
    | '[' :: rest =>
      match rest.dropWhile isJsonWs with
      | ']' :: r => some (.arr [], r)
      | _ => (parseJsonItems fuel rest).map (fun p => (.arr p.1, p.2))
    | '{' :: rest =>
      match rest.dropWhile isJsonWs with
      | '}' :: r => some (.obj [], r)
      | _ => (parseJsonMembers fuel rest).map (fun p => (.obj p.1, p.2))
    | c :: rest =>
      if c = '-' || c.isDigit then
        (parseJsonNumber (c :: rest)).map (fun p => (.num (String.mk p.1), p.2))
      else none
    | [] => none

/-- Array elements after `[` (at least one element). -/
def parseJsonItems : Nat → List Char → Option (List Json × List Char)
  | 0, _ => none
  | fuel + 1, cs => do
    let (v, r) ← parseJsonVal fuel cs
    match r.dropWhile isJsonWs with
    | ']' :: r2 => some ([v], r2)
    | ',' :: r2 => (parseJsonItems fuel r2).map (fun p => (v :: p.1, p.2))
    | _ => none

/-- Object members after `{` (at least one member). -/
def parseJsonMembers : Nat → List Char → Option (List (String × Json) × List Char)
  | 0, _ => none
  | fuel + 1, cs =>
    match cs.dropWhile isJsonWs with
    | '"' :: rest => do
      let (k, r) ← parseStringChars rest
      match r.dropWhile isJsonWs with
      | ':' :: r2 => do
        let (v, r3) ← parseJsonVal fuel r2
        match r3.dropWhile isJsonWs with
        | '}' :: r4 => some ([(String.mk k, v)], r4)
        | ',' :: r4 => (parseJsonMembers fuel r4).map (fun p => ((String.mk k, v) :: p.1, p.2))
        | _ => none
      | _ => none
    | _ => none

end

/-- `json.loads`: parse one value and require the rest to be whitespace.
`none` models `json.JSONDecodeError`. -/
def pyJsonLoads (s : String) : Option Json :=
  match parseJsonVal (2 * s.toList.length + 4) s.toList with
  | some (v, rest) => if rest.dropWhile isJsonWs = [] then some v else none
  | none => none

/-- Lookup in a parsed JSON object (`d[k]` / `d.get(k)`); as in a Python
dict built from a JSON object, a later duplicate key wins. -/
def jsonObjGet (kvs : List (String × Json)) (k : String) : Option Json :=
  kvs.reverse.lookup k

/-! ## `models.py`: the data classes -/

inductive PyErr where
  | attributeError
  | typeError
  | keyError
  | valueError
  | httpError
  | generic
deriving DecidableEq

/-- Stand-in for `datetime`: the pipeline only reads `year`, `month`, `day`
of the run timestamp. -/
structure PyDate where
  year : Nat
  month : Nat
  day : Nat
deriving DecidableEq

/-- `Bookmark` (`models.py`).  The two optional `datetime` fields are kept
as opaque optional strings; no claim depends on them. -/
structure Bookmark where
  id : String
  text : String
  author_name : String
  author_username : String
  url : String
  created_at : Option String := none
  bookmarked_at : Option String := none
  like_count : Nat := 0
  retweet_count : Nat := 0
  reply_count : Nat := 0
deriving DecidableEq

/-- `WebResult` (`models.py`). -/
structure WebResult where
  title : String
  url : String
  snippet : String
deriving DecidableEq

/-- `EnrichedBookmark` (`models.py`).

* `category` and `summary` are annotated `str` in the source, but
  `build_enriched_bookmarks` stores whatever JSON values the parsed model
  response supplies for them, so they are modelled as `Json`.
* The dataclass declares NO importance field.  `slack_notifier.py` and
  `main.py` nevertheless read `bm.importance`, and the unit tests assign it
  dynamically (`bm.importance = "high"`), which plain dataclasses permit.
  The dynamic attribute is modelled as `importance : Option String` where
  `none` means the attribute was never assigned (reading it in Python
  raises `AttributeError`). -/
structure EnrichedBookmark where
  bookmark : Bookmark
  category : Json := Json.str "その他"
  summary : Json := Json.str ""
  keywords : List String := []
  web_results : List WebResult := []
  enrichment_summary : String := ""
  importance : Option String := none

/-- `DigestResult` (`models.py`); `token_usage` is the dict with keys
`input_tokens` / `output_tokens`. -/
structure DigestResult where
  date : PyDate
  bookmarks : List EnrichedBookmark
  total_count : Nat
  model_used : String
  token_usage_input : Nat := 0
  token_usage_output : Nat := 0

/-! ## `summarizer.py`

The Anthropic client is replaced by a `CompletionOracle` giving the text
and token usage of each successful completion call (`chunkText i` /
`chunkUsage i` for the summarization call on chunk number `i`,
`noteResp id` for the per-bookmark enrichment-note call, `error` when that
call raises).  The `@with_retry` decorators are transparent on a
successful call (proved about `withRetry` below), so the oracle models the
outcome of the decorated call. -/

structure CompletionOracle where
  chunkText : Nat → String
  chunkUsage : Nat → Nat × Nat
  noteResp : String → Except PyErr String

/-- `CHUNK_SIZE = 20`. -/
def CHUNK_SIZE : Nat := 20

/-- `True` when the text contains a fence marker (three consecutive
backticks), the `"```" in result_text` test. -/
def hasFenceMarker : List Char → Bool
  | [] => false
  | c :: rest =>
    (match c :: rest with
     | c1 :: c2 :: c3 :: _ =>
       c1 = backtickChar && c2 = backtickChar && c3 = backtickChar
     | _ => false) ||
    hasFenceMarker rest

/-- `re.sub(r"```(?:json)?", "", text)`: left-to-right removal of every
fence marker, preferring the longer match with the `json` tag. -/
def removeFences : List Char → List Char
  | c1 :: c2 :: c3 :: 'j' :: 's' :: 'o' :: 'n' :: rest =>
    if c1 = backtickChar && c2 = backtickChar && c3 = backtickChar then
      removeFences rest
    else c1 :: removeFences (c2 :: c3 :: 'j' :: 's' :: 'o' :: 'n' :: rest)
  | c1 :: c2 :: c3 :: rest =>
    if c1 = backtickChar && c2 = backtickChar && c3 = backtickChar then
      removeFences rest
    else c1 :: removeFences (c2 :: c3 :: rest)
  | cs => cs
termination_by cs => cs.length
decreasing_by all_goals (simp only [List.length_cons]; omega)

/-- The code-fence stripping applied to the (already stripped) response
text when it contains a fence marker:
`re.sub(r"```(?:json)?", "", t).strip().rstrip("`").strip()`. -/
def cleanResultChars (cs : List Char) : List Char :=
  let t := pyStripChars cs
  if hasFenceMarker t then
    pyStripChars
      (((pyStripChars (removeFences t)).reverse.dropWhile
          (fun c => c = backtickChar)).reverse)
  else t

/-- `re.search(r"\[.*?\]", text, re.DOTALL)`: the segment from the first
`[` of the text to the first `]` after it, if both exist (the lazy
quantifier stops at the first closing bracket; a later `[` can never start
a match if the first one has no `]` after it). -/
def bracketSlice (cs : List Char) : Option (List Char) :=
  match cs.dropWhile (fun c => c ≠ '[') with
  | '[' :: rest =>
    if rest.contains ']' then
      some ('[' :: rest.takeWhile (fun c => c ≠ ']') ++ [']'])
    else none
  | _ => none

/-- The per-record default entries synthesized when every parse attempt
fails: `{"id": bm.id, "category": "その他", "summary": bm.text[:80] + "…"}`. -/
def defaultChunkEntries (bms : List Bookmark) : List Json :=
  bms.map (fun bm => Json.obj
    [("id", Json.str bm.id),
     ("category", Json.str "その他"),
     ("summary", Json.str (bm.text.take 80 ++ "…"))])

/-- The parsing ladder of `_summarize_chunk` (lines 75–104): strip, remove
code fences, `json.loads`; on failure extract the first bracketed segment
and retry; on failure synthesize one default entry per record.  The value
returned is whatever Python object a successful `json.loads` produced —
NOT necessarily a list of the right length. -/
def parseChunkSummaries (bms : List Bookmark) (responseText : String) : Json :=
  let t := cleanResultChars responseText.toList
  match pyJsonLoads (String.mk t) with
  | some j => j
  | none =>
    match bracketSlice t with
    | some seg =>
      match pyJsonLoads (String.mk seg) with
      | some j => j
      | none => Json.arr (defaultChunkEntries bms)
    | none => Json.arr (defaultChunkEntries bms)

/-- `all_summaries.extend(summaries)`: extending by a parsed JSON value
iterates it — lists yield their items, dicts their keys, strings their
characters; any other value raises `TypeError`. -/
def pyExtendIter : Json → Except PyErr (List Json)
  | Json.arr xs => .ok xs
  | Json.obj kvs => .ok (kvs.map (fun kv => Json.str kv.1))
  | Json.str s => .ok (s.toList.map (fun c => Json.str (String.mk [c])))
  | _ => .error .typeError

/-- The chunk loop of `categorize_and_summarize`, over `(index, chunk)`
pairs; accumulates entries and token usage. -/
def summarizeChunksGo (o : CompletionOracle) :
    List (Nat × List Bookmark) → Except PyErr (List Json × (Nat × Nat))
  | [] => .ok ([], (0, 0))
  | (idx, chunk) :: rest => do
    let s ← pyExtendIter (parseChunkSummaries chunk (o.chunkText idx))
    let p ← summarizeChunksGo o rest
    .ok (s ++ p.1, ((o.chunkUsage idx).1 + p.2.1, (o.chunkUsage idx).2 + p.2.2))

/-- `categorize_and_summarize`: split into `CHUNK_SIZE`-sized chunks, one
completion call per chunk, concatenating entries and summing usage. -/
def categorizeAndSummarize (o : CompletionOracle) (bms : List Bookmark) :
    Except PyErr (List Json × (Nat × Nat)) :=
  summarizeChunksGo o (chunkList CHUNK_SIZE bms).enum

/-- `summarize_enrichment`: empty when there are no web results or no
usable result text; otherwise the completion response, stripped, with the
sentinel `（補足情報なし）` mapped to the empty string. -/
def summarizeEnrichment (o : CompletionOracle) (bm : Bookmark)
    (webResults : List WebResult) : Except PyErr String :=
  if webResults.isEmpty then .ok ""
  else
    let resultsText := String.intercalate "\n"
      ((webResults.filter (fun r => r.title != "" || r.snippet != "")).map
        (fun r => "- 【" ++ r.title ++ "】" ++ r.snippet.take 150))
    if pyStrip resultsText = "" then .ok ""
    else do
      let txt ← o.noteResp bm.id
      let result := pyStrip txt
      .ok (if result = "（補足情報なし）" then "" else result)

/-- `summary_map = {s["id"]: s for s in summaries_raw}`: each entry must be
a dict (`TypeError` otherwise) containing an `"id"` key (`KeyError`
otherwise); an unhashable id value (list/dict) raises `TypeError`.  A
hashable non-string id can never compare equal to a bookmark id at lookup
time, so such entries are dropped here (lookup-equivalent). -/
def summaryMapEntries : List Json → Except PyErr (List (String × Json))
  | [] => .ok []
  | Json.obj kvs :: rest => do
    let tail ← summaryMapEntries rest
    match jsonObjGet kvs "id" with
    | some (Json.str sid) => .ok ((sid, Json.obj kvs) :: tail)
    | some (Json.arr _) => .error .typeError
    | some (Json.obj _) => .error .typeError
    | some _ => .ok tail
    | none => .error .keyError
  | _ :: _ => .error .typeError

/-- Python dict lookup on an insertion-ordered association list: a later
duplicate key wins. -/
def pyDictGet (l : List (String × β)) (k : String) : Option β :=
  l.reverse.lookup k

/-- `build_enriched_bookmarks` (lines 200–251): batch summaries merged with
the enrichment map into `EnrichedBookmark` values.  Note that no
importance attribute is ever assigned. -/
def buildEnrichedBookmarks (o : CompletionOracle) (bms : List Bookmark)
    (enrichmentData : String → List String × List WebResult) :
    Except PyErr (List EnrichedBookmark × (Nat × Nat)) := do
  let p ← categorizeAndSummarize o bms
  let summaryMap ← summaryMapEntries p.1
  let enriched := bms.map (fun bm =>
    let summaryData : List (String × Json) :=
      match pyDictGet summaryMap bm.id with
      | some (Json.obj kvs) => kvs
      | _ => []
    let kwWr := enrichmentData bm.id
    let enrichmentSummary :=
      if kwWr.2.isEmpty then ""
      else
        match summarizeEnrichment o bm kwWr.2 with
        | .ok s => s
        | .error _ => ""
    { bookmark := bm
      category := (jsonObjGet summaryData "category").getD (Json.str "その他")
      summary := (jsonObjGet summaryData "summary").getD
        (Json.str (bm.text.take 100 ++ "…"))
      keywords := kwWr.1
      web_results := kwWr.2
      enrichment_summary := enrichmentSummary
      importance := none })
  .ok (enriched, p.2)

/-! ## `slack_notifier.py`

One message = an ordered block list plus a plain-text fallback string.
The mrkdwn text assembly of the individual section blocks
(`_build_high_block`, `_build_normal_block`, the per-block 3000-character
truncation) is abstracted: block payloads carry the records they render,
since no claim concerns the rendered text, while the classification,
grouping, ordering and pagination logic is embedded in full. -/

inductive Block where
  | header (text : String)
  | context (text : String)
  | divider
  | sectionHighPick
  | sectionHigh (bm : EnrichedBookmark)
  | sectionCategory (category : Json) (bms : List EnrichedBookmark)
  | sectionLow (bms : List EnrichedBookmark)
  | contextFooter

/-- `MAX_BLOCKS_PER_MESSAGE = 50`. -/
def MAX_BLOCKS_PER_MESSAGE : Nat := 50

/-- `_truncate`. -/
def pyTruncate (text : String) (maxLen : Nat := 200) : String :=
  if text.length ≤ maxLen then text else text.take (maxLen - 1) ++ "…"

/-- `[bm for bm in result.bookmarks if bm.importance == tier]`: evaluating
`bm.importance` raises `AttributeError` on any record whose attribute was
never assigned. -/
def importanceFilter (bms : List EnrichedBookmark) (tier : String) :
    Except PyErr (List EnrichedBookmark) :=
  if bms.all (fun bm => bm.importance.isSome) then
    .ok (bms.filter (fun bm => bm.importance == some tier))
  else .error .attributeError

/-- A Python-hashable JSON value (usable as a `defaultdict` key);
lists/dicts raise `TypeError`. -/
def jsonHashable : Json → Bool
  | .arr _ => false
  | .obj _ => false
  | _ => true

/-- Equality of hashable JSON values as dict keys.  (Python compares
numbers by value, e.g. `1 == 1.0`; the raw-lexeme comparison used here
agrees on every reachable input, where categories are strings.) -/
def jsonKeyBeq : Json → Json → Bool
  | .null, .null => true
  | .bool a, .bool b => a == b
  | .num a, .num b => a == b
  | .str a, .str b => a == b
  | _, _ => false

/-- One step of the `defaultdict(list)` grouping `by_cat[bm.category].append(bm)`
(insertion-ordered keys, appends at group end). -/
def addToGroup (acc : List (Json × List EnrichedBookmark))
    (bm : EnrichedBookmark) : List (Json × List EnrichedBookmark) :=
  if acc.any (fun p => jsonKeyBeq p.1 bm.category) then
    acc.map (fun p =>
      if jsonKeyBeq p.1 bm.category then (p.1, p.2 ++ [bm]) else p)
  else acc ++ [(bm.category, [bm])]

/-- `sorted(bms, key=lambda b: b.bookmark.like_count, reverse=True)`. -/
def sortBmsByLikes (bs : List EnrichedBookmark) : List EnrichedBookmark :=
  bs.mergeSort (fun a b => decide (b.bookmark.like_count ≤ a.bookmark.like_count))

/-- `sorted(by_cat.items(), key=lambda x: len(x[1]), reverse=True)`. -/
def sortCatsBySize (cats : List (Json × List EnrichedBookmark)) :
    List (Json × List EnrichedBookmark) :=
  cats.mergeSort (fun a b => decide (b.2.length ≤ a.2.length))

/-- `build_digest_blocks` (lines 67–148). -/
def buildDigestBlocks (result : DigestResult) : Except PyErr (List Block) := do
  let dateStr := toString result.date.year ++ "年" ++ toString result.date.month
    ++ "月" ++ toString result.date.day ++ "日"
  let highBms ← importanceFilter result.bookmarks "high"
  let normalBms ← importanceFilter result.bookmarks "normal"
  let lowBms ← importanceFilter result.bookmarks "low"
  let counts :=
    (if highBms.isEmpty then [] else
      ["🔴 重要 " ++ toString highBms.length ++ "件"]) ++
    (if normalBms.isEmpty then [] else
      ["🔵 通常 " ++ toString normalBms.length ++ "件"]) ++
    (if lowBms.isEmpty then [] else
      ["⚫ 薄め " ++ toString lowBms.length ++ "件"])
  let headBlocks : List Block :=
    [.header ("📚 X Bookmark Digest｜" ++ dateStr),
     .context (String.intercalate "  " counts
       ++ "　計 " ++ toString result.total_count ++ "件"),
     .divider]
  let highBlocks : List Block :=
    if highBms.isEmpty then []
    else .sectionHighPick :: highBms.map Block.sectionHigh ++ [.divider]
  let normalBlocks : List Block ←
    if normalBms.isEmpty then pure []
    else if normalBms.all (fun bm => jsonHashable bm.category) then
      pure ((sortCatsBySize (normalBms.foldl addToGroup [])).map
        (fun p => Block.sectionCategory p.1 (sortBmsByLikes p.2)) ++ [.divider])
    else throw .typeError
  let lowBlocks : List Block :=
    if lowBms.isEmpty then [] else [.sectionLow lowBms, .divider]
  .ok (headBlocks ++ highBlocks ++ normalBlocks ++ lowBlocks ++ [.contextFooter])

/-- The fallback text
`"X Bookmark Digest y/m/d （total件）"` with the year, month, day and
total count interpolated. -/
def fallbackText (result : DigestResult) : String :=
  "X Bookmark Digest " ++ toString result.date.year ++ "/"
    ++ toString result.date.month ++ "/" ++ toString result.date.day
    ++ " （" ++ toString result.total_count ++ "件）"

/-- The message list emitted by `send_to_slack` (lines 176–197): a single
message within the 50-block ceiling, otherwise chunks of
`MAX_BLOCKS_PER_MESSAGE - 2` blocks, the fallback text of chunk `i` (zero
based) suffixed with `（i+1/N）` when there is more than one chunk. -/
def slackChunkMessages (blocks : List Block) (fb : String) :
    List (List Block × String) :=
  if blocks.length ≤ MAX_BLOCKS_PER_MESSAGE then [(blocks, fb)]
  else
    let chunks := chunkList (MAX_BLOCKS_PER_MESSAGE - 2) blocks
    chunks.enum.map (fun p =>
      (p.2, fb ++ (if 1 < chunks.length then
        "（" ++ toString (p.1 + 1) ++ "/" ++ toString chunks.length ++ "）"
      else "")))

/-- Sequential `_send_payload` posting of messages `0..n-1`; the first
failure (`response.raise_for_status()`) propagates. -/
def postMessages (post : Nat → Except PyErr Unit) : Nat → Except PyErr Unit
  | 0 => .ok ()
  | n + 1 => do
    postMessages post n
    post n

/-- `send_to_slack`: build the blocks, paginate, post every message;
returns `True` on success, propagates any exception. -/
def sendToSlack (post : Nat → Except PyErr Unit) (result : DigestResult) :
    Except PyErr Bool := do
  let blocks ← buildDigestBlocks result
  let msgs := slackChunkMessages blocks (fallbackText result)
  postMessages post msgs.length
  .ok true

/-! ## `utils.py`: `with_retry`

Delays are modelled in `ℚ` (the source uses floats; all claims are about
the closed-form delay values).  `rand k` is the `random.random()` draw
before the sleep after failed attempt `k`, a value in `[0, 1)`. -/

/-- Trace of one run of a `with_retry`-wrapped call: final outcome, number
of attempts actually made, and the sleep durations in order. -/
structure RetryTrace (E A : Type) where
  result : Except E A
  calls : Nat
  sleeps : List ℚ

/-- `delay = min(base_delay * (2 ** attempt), max_delay)`, multiplied by
`(0.5 + random.random() * 0.5)` when jitter is enabled. -/
def retryDelay (baseDelay maxDelay : ℚ) (useJitter : Bool) (rand : Nat → ℚ)
    (k : Nat) : ℚ :=
  min (baseDelay * 2 ^ k) maxDelay *
    (if useJitter then 1/2 + rand k * (1/2) else 1)

/-- The attempt loop of the wrapper: `k` is the current attempt number,
`r` the number of attempts still allowed after it.  A failure with `r = 0`
re-raises (`if attempt == max_retries: raise`); otherwise the wrapper
sleeps and retries. -/
def retryGo (baseDelay maxDelay : ℚ) (useJitter : Bool) (rand : Nat → ℚ)
    (f : Nat → Except E A) : Nat → Nat → RetryTrace E A
  | k, 0 =>
    match f k with
    | .ok v => ⟨.ok v, 1, []⟩
    | .error e => ⟨.error e, 1, []⟩
  | k, r + 1 =>
    match f k with
    | .ok v => ⟨.ok v, 1, []⟩
    | .error _ =>
      let t := retryGo baseDelay maxDelay useJitter rand f (k + 1) r
      ⟨t.result, t.calls + 1, retryDelay baseDelay maxDelay useJitter rand k :: t.sleeps⟩

/-- `with_retry(max_retries, base_delay, max_delay, jitter)` applied to a
call whose attempt number `k` has outcome `f k`: the loop
`for attempt in range(max_retries + 1)`. -/
def withRetry (maxRetries : Nat) (baseDelay maxDelay : ℚ) (useJitter : Bool)
    (rand : Nat → ℚ) (f : Nat → Except E A) : RetryTrace E A :=
  retryGo baseDelay maxDelay useJitter rand f 0 maxRetries

/-! ## `search_enricher.py`: `enrich_all_bookmarks`

`g bm` is the outcome of `enrich_bookmark(anthropic_client, bm)` for one
record — `error` when that call raises. -/

/-- `enrich_all_bookmarks` (lines 175–197): a dict keyed by bookmark id;
a raising record contributes `([], [])` and the loop continues. -/
def enrichAllBookmarks
    (g : Bookmark → Except PyErr (List String × List WebResult))
    (bms : List Bookmark) : List (String × (List String × List WebResult)) :=
  bms.map (fun bm =>
    (bm.id, match g bm with
            | .ok v => v
            | .error _ => ([], [])))

/-! ## `main.py`: `run_digest`

All external effects are parameters of the run environment; the run result
records the exit status, the final content of the watermark file, whether
the Slack send raised, whether `save_processed_ids` was ever invoked, and
the ids of the records assembled into the digest. -/

/-- `_save_digest_cache`: its payload includes `"importance": bm.importance`
for every record, raising `AttributeError` on any record whose attribute
was never assigned.  (The file write itself is assumed to succeed.) -/
def saveDigestCache (result : DigestResult) : Except PyErr Unit :=
  if result.bookmarks.all (fun bm => bm.importance.isSome) then .ok ()
  else .error .attributeError

/-- `list(existing | ids)`: the set union of the watermark file content and
the new ids, as a duplicate-free list.  (Python iterates a set in arbitrary
order; the theorems below hold for every order, stated over this one.) -/
def pyUnionList (a b : List String) : List String :=
  (a ++ b.filter (fun x => !a.contains x)).eraseDups

structure RunEnv where
  oracle : CompletionOracle
  now : PyDate
  allBookmarks : List Bookmark
  processedIds : List String
  enrichOutcome : Bookmark → Except PyErr (List String × List WebResult)
  post : Nat → Except PyErr Unit
  dryRun : Bool := false
  maxItems : Nat := 30
  skipEnrich : Bool := false

structure RunResult where
  exitCode : Nat
  finalWatermark : List String
  sendErrored : Bool
  saveInvoked : Bool
  digestIds : List String

/-- The enrichment map handed to `build_enriched_bookmarks`: empty pairs
under `--skip-enrich`, otherwise the `enrich_all_bookmarks` dict (missing
ids default to `([], [])` via `enrichment_data.get`). -/
def pipelineEnrichData (env : RunEnv) (bookmarks : List Bookmark) :
    String → List String × List WebResult :=
  if env.skipEnrich then fun _ => ([], [])
  else fun i =>
    (pyDictGet (enrichAllBookmarks env.enrichOutcome bookmarks) i).getD ([], [])

/-- Steps 1–2 of `run_digest`: the new bookmarks, capped at `max_items`
(`bookmarks = bookmarks[:max_items]`). -/
def pipelineCapped (env : RunEnv) : List Bookmark :=
  let bookmarks0 := env.allBookmarks.filter
    (fun bm => !env.processedIds.contains bm.id)
  if env.maxItems < bookmarks0.length then bookmarks0.take env.maxItems
  else bookmarks0

/-- Step 6 of `run_digest`: the assembled `DigestResult`. -/
def pipelineResult (env : RunEnv) (enriched : List EnrichedBookmark)
    (usage : Nat × Nat) : DigestResult :=
  { date := env.now
    bookmarks := enriched
    total_count := enriched.length
    model_used := "claude-sonnet-4-5 / claude-haiku-4-5"
    token_usage_input := usage.1
    token_usage_output := usage.2 }

/-- Steps 7–9 of `run_digest`: Slack send (skipped under `--dry-run`),
digest-cache write, processed-id save.  Any exception ends the run with
exit code 1, leaving the watermark file unchanged, before the later steps
run. -/
def pipelineDeliver (env : RunEnv) (enriched : List EnrichedBookmark)
    (usage : Nat × Nat) : RunResult :=
  match (if env.dryRun then (Except.ok true : Except PyErr Bool)
         else sendToSlack env.post (pipelineResult env enriched usage)) with
  | .error _ =>
    ⟨1, env.processedIds, !env.dryRun, false,
      enriched.map (fun eb => eb.bookmark.id)⟩
  | .ok _ =>
    match saveDigestCache (pipelineResult env enriched usage) with
    | .error _ =>
      ⟨1, env.processedIds, false, false,
        enriched.map (fun eb => eb.bookmark.id)⟩
    | .ok _ =>
      ⟨0, savedIds (pyUnionList env.processedIds
            (enriched.map (fun eb => eb.bookmark.id))), false, true,
        enriched.map (fun eb => eb.bookmark.id)⟩

/-- `run_digest` (lines 79–174): load (given), filter against the
watermark (exit 0 when nothing is new), cap at `max_items`, enrich,
summarize, assemble, deliver, save.  Any exception inside the `try` block
is caught, reported, and ends the run with `sys.exit(1)` without reaching
the later steps. -/
def runDigest (env : RunEnv) : RunResult :=
  if (env.allBookmarks.filter (fun bm => !env.processedIds.contains bm.id)).isEmpty then
    ⟨0, env.processedIds, false, false, []⟩
  else
    match buildEnrichedBookmarks env.oracle (pipelineCapped env)
        (pipelineEnrichData env (pipelineCapped env)) with
    | .error _ => ⟨1, env.processedIds, false, false, []⟩
    | .ok (enriched, usage) => pipelineDeliver env enriched usage

/-! ## Concrete instances evaluated in the closed theorems below -/

/-- A minimal bookmark. -/
def bmOne : Bookmark :=
  { id := "111", text := "hello", author_name := "A",
    author_username := "a", url := "https://x.com/a/status/111" }

/-- An oracle whose summarization responses are empty strings (driving the
parser to its per-record default entries) and whose other calls succeed. -/
def oracleEmpty : CompletionOracle :=
  { chunkText := fun _ => "", chunkUsage := fun _ => (0, 0),
    noteResp := fun _ => .ok "" }

/-- The enriched record the pipeline produces for `bmOne` under
`oracleEmpty` and empty enrichment data. -/
def ebOne : EnrichedBookmark :=
  { bookmark := bmOne
    category := Json.str "その他"
    summary := Json.str "hello…"
    keywords := []
    web_results := []
    enrichment_summary := ""
    importance := none }

/-- A digest holding exactly the record produced for `bmOne`. -/
def digestOne : DigestResult :=
  { date := ⟨2026, 2, 19⟩, bookmarks := [ebOne], total_count := 1,
    model_used := "claude-sonnet-4-5 / claude-haiku-4-5" }

/-- A run: one new bookmark, every external call succeeding. -/
def envOne : RunEnv :=
  { oracle := oracleEmpty
    now := ⟨2026, 2, 19⟩
    allBookmarks := [bmOne]
    processedIds := ["999"]
    enrichOutcome := fun _ => .ok ([], [])
    post := fun _ => .ok () }

/-- A second bookmark for the capped run. -/
def bmTwo : Bookmark :=
  { id := "222", text := "second", author_name := "B",
    author_username := "b", url := "https://x.com/b/status/222" }

/-- Two fresh bookmarks against a `max_items = 1` run with every external
call succeeding. -/
def envCap : RunEnv :=
  { oracle := oracleEmpty
    now := ⟨2026, 2, 19⟩
    allBookmarks := [bmOne, bmTwo]
    processedIds := []
    enrichOutcome := fun _ => .ok ([], [])
    post := fun _ => .ok ()
    maxItems := 1 }

/-- The same capped run in dry-run mode (no Slack send at all). -/
def envCapDry : RunEnv :=
  { envCap with dryRun := true }

/-- Two bookmarks for the enrichment-failure witness. -/
def bmNineA : Bookmark :=
  { id := "a1", text := "ta", author_name := "A", author_username := "a",
    url := "ua" }

def bmNineB : Bookmark :=
  { id := "a2", text := "tb", author_name := "B", author_username := "b",
    url := "ub" }

/-- Per-record enrichment outcomes: the first record raises, the second
succeeds. -/
def gNine : Bookmark → Except PyErr (List String × List WebResult) :=
  fun bm => if bm.id = "a1" then .error .generic else .ok (["k"], [])

/-- Jitter draws for the retry witness (`random.random()` returning `0`). -/
def randZero : Nat → ℚ := fun _ => 0

/-- A wrapped call failing on attempt `0` and succeeding on attempt `1`. -/
def fRetry : Nat → Except Nat Nat := fun k => if k = 0 then .error 0 else .ok 7

/-- A wrapped call failing on every attempt. -/
def fFail : Nat → Except Nat Nat := fun _ => .error 0

/-! ## Helper lemmas -/

theorem chunkListGo_congr (n : Nat) (hn : n ≠ 0) :
    ∀ fuel1 fuel2 (l : List α), l.length ≤ fuel1 → l.length ≤ fuel2 →
      chunkListGo n fuel1 l = chunkListGo n fuel2 l := by
  intro fuel1
  induction fuel1 with
  | zero =>
    intro fuel2 l h1 _
    have : l = [] := List.eq_nil_of_length_eq_zero (Nat.le_zero.mp h1)
    subst this
    cases fuel2 <;> rfl
  | succ f1 ih =>
    intro fuel2 l h1 h2
    cases l with
    | nil => cases fuel2 <;> rfl
    | cons x xs =>
      cases fuel2 with
      | zero =>
        exact absurd h2 (by simp)
      | succ f2 =>
        simp only [chunkListGo]
        congr 1
        apply ih
        · simp only [List.length_drop, List.length_cons] at *
          omega
        · simp only [List.length_drop, List.length_cons] at *
          omega

theorem chunkList_nil (n : Nat) : chunkList n ([] : List α) = [] := rfl

theorem chunkList_eq_cons (n : Nat) (l : List α) (hl : l ≠ []) (hn : n ≠ 0) :
    chunkList n l = l.take n :: chunkList n (l.drop n) := by
  rcases List.exists_cons_of_ne_nil hl with ⟨x, xs, rfl⟩
  show chunkListGo n (x :: xs).length (x :: xs) = _
  have hlen : (x :: xs).length = xs.length + 1 := rfl
  rw [hlen]
  simp only [chunkListGo]
  congr 1
  apply chunkListGo_congr n hn
  · simp only [List.length_drop, List.length_cons]
    omega
  · exact le_refl _

/-- Concatenating the chunks gives back the original list. -/
theorem join_chunkList (n : Nat) (hn : n ≠ 0) : ∀ l : List α,
    (chunkList n l).flatten = l
  | [] => by simp [chunkList_nil]
  | x :: xs => by
    rw [chunkList_eq_cons n (x :: xs) (by simp) hn, List.flatten_cons,
      join_chunkList n hn ((x :: xs).drop n), List.take_append_drop]
termination_by l => l.length
decreasing_by simp only [List.length_drop, List.length_cons]; omega

/-- Every chunk has at most `n` elements. -/
theorem length_le_of_mem_chunkList (n : Nat) (hn : n ≠ 0) : ∀ l c : List α,
    c ∈ chunkList n l → c.length ≤ n
  | [], c, hc => by simp [chunkList_nil] at hc
  | x :: xs, c, hc => by
    rw [chunkList_eq_cons n (x :: xs) (by simp) hn, List.mem_cons] at hc
    rcases hc with hc | hc
    · subst hc
      exact (List.length_take _ _).le.trans (Nat.min_le_left _ _)
    · exact length_le_of_mem_chunkList n hn ((x :: xs).drop n) c hc
termination_by l => l.length
decreasing_by simp only [List.length_drop, List.length_cons]; omega

/-- No chunk is empty. -/
theorem ne_nil_of_mem_chunkList (n : Nat) (hn : n ≠ 0) : ∀ l c : List α,
    c ∈ chunkList n l → c ≠ []
  | [], c, hc => by simp [chunkList_nil] at hc
  | x :: xs, c, hc => by
    rw [chunkList_eq_cons n (x :: xs) (by simp) hn, List.mem_cons] at hc
    rcases hc with hc | hc
    · subst hc
      simp only [ne_eq, List.take_eq_nil_iff]
      simp [hn]
    · exact ne_nil_of_mem_chunkList n hn ((x :: xs).drop n) c hc
termination_by l => l.length
decreasing_by simp only [List.length_drop, List.length_cons]; omega

/-- When the list is longer than one chunk, there are at least two chunks. -/
theorem two_le_length_chunkList (n : Nat) (l : List α) (hn : n ≠ 0)
    (h : n < l.length) : 2 ≤ (chunkList n l).length := by
  have hl : l ≠ [] := by
    intro h0; subst h0; simp at h
  rw [chunkList_eq_cons n l hl hn]
  have hd : l.drop n ≠ [] := by
    simp only [ne_eq, List.drop_eq_nil_iff]
    omega
  have hne : chunkList n (l.drop n) ≠ [] := by
    rw [chunkList_eq_cons n (l.drop n) hd hn]
    simp
  rcases List.exists_cons_of_ne_nil hne with ⟨c, cs, hcs⟩
  simp [hcs]

theorem sortIdsDesc_perm (l : List String) : (sortIdsDesc l).Perm l :=
  List.mergeSort_perm l _

theorem sortIdsDesc_pairwise (l : List String) :
    (sortIdsDesc l).Pairwise (fun a b => pySortKey b ≤ pySortKey a) := by
  have htrans : ∀ a b c : String,
      decide (pySortKey b ≤ pySortKey a) →
      decide (pySortKey c ≤ pySortKey b) →
      decide (pySortKey c ≤ pySortKey a) := by
    intro a b c hab hbc
    simp only [decide_eq_true_eq] at *
    exact le_trans hbc hab
  have htotal : ∀ a b : String,
      decide (pySortKey b ≤ pySortKey a) || decide (pySortKey a ≤ pySortKey b) := by
    intro a b
    simp only [Bool.or_eq_true, decide_eq_true_eq]
    exact le_total _ _
  have h := @List.sorted_mergeSort String
    (fun a b : String => decide (pySortKey b ≤ pySortKey a))
    htrans htotal l
  exact h.imp (fun hab => by simpa using hab)

/-- C3: `save_processed_ids` persists `min |union| 100000` identifiers, all
drawn from the union; every persisted identifier has a sort key at least as
large as every evicted one (on numerically parseable identifiers the sort
key is exactly the numeric value, last conjunct); and a union within the
ceiling is persisted in full (as a permutation). -/
theorem save_processed_ids_cap (u : List String) :
    (savedIds u).length = min u.length PROCESSED_IDS_CAP
    ∧ (∀ x ∈ savedIds u, x ∈ u)
    ∧ (∀ x ∈ savedIds u, ∀ y ∈ u, y ∉ savedIds u → pySortKey y ≤ pySortKey x)
    ∧ (u.length ≤ PROCESSED_IDS_CAP → (savedIds u).Perm u)
    ∧ (∀ s : String, ∀ n : Int, pyIntOfString s = some n → pySortKey s = n) := by
  have hperm := sortIdsDesc_perm u
  have hlen : (sortIdsDesc u).length = u.length := hperm.length_eq
  refine ⟨?_, ?_, ?_, ?_, ?_⟩
  · simp [savedIds, List.length_take, hlen, Nat.min_comm]
  · intro x hx
    exact hperm.mem_iff.mp (List.mem_of_mem_take hx)
  · intro x hx y hy hyn
    have hy2 : y ∈ sortIdsDesc u := hperm.mem_iff.mpr hy
    have hsplit : y ∈ (sortIdsDesc u).take PROCESSED_IDS_CAP
        ∨ y ∈ (sortIdsDesc u).drop PROCESSED_IDS_CAP := by
      rw [← List.mem_append, List.take_append_drop]
      exact hy2
    rcases hsplit with h1 | h2
    · exact absurd h1 hyn
    · exact List.Sorted.rel_of_mem_take_of_mem_drop (sortIdsDesc_pairwise u) hx h2
  · intro hle
    have ht : (sortIdsDesc u).take PROCESSED_IDS_CAP = sortIdsDesc u :=
      List.take_of_length_le (by omega)
    rw [savedIds, ht]
    exact hperm
  · intro s n h
    simp [pySortKey, h]

/-- Witness for C3: a two-element union is within the ceiling and persisted
in full; a 100001-element union is truncated to exactly 100000 entries. -/
theorem save_processed_ids_cap_w :
    ((["10", "9"] : List String).length ≤ PROCESSED_IDS_CAP
      ∧ (savedIds ["10", "9"]).Perm ["10", "9"])
    ∧ (savedIds (List.replicate 100001 "7")).length = 100000 := by
  constructor
  · exact ⟨by decide, (save_processed_ids_cap ["10", "9"]).2.2.2.1 (by decide)⟩
  · have h := (save_processed_ids_cap (List.replicate 100001 "7")).1
    rw [List.length_replicate] at h
    rw [h]
    decide

/-- C4 counterexample: `"abc"` does not parse, `"-5"` parses to `-5`, yet
the sort key of `"abc"` is `0`, which is NOT strictly below the key of the
parseable `"-5"` — it is strictly above it, so in a descending truncation
the parseable `"-5"` is evicted before the unparseable `"abc"`. -/
theorem sort_key_counter :
    pyIntOfString "abc" = none
    ∧ pyIntOfString "-5" = some (-5)
    ∧ pySortKey "abc" = 0
    ∧ pySortKey "-5" < pySortKey "abc" := by decide

/-- C4 amended: an identifier string that does not parse as a number gets
sort key `0` — so it sorts strictly below every identifier with a positive
numeric value (in particular below every tweet id), ties with value `0`,
and sits above negative values; the fallback makes the key total, so the
sort never raises. -/
theorem sort_key_fallback (s : String) (h : pyIntOfString s = none) :
    pySortKey s = 0
    ∧ (∀ t : String, ∀ n : Int, pyIntOfString t = some n → 0 < n →
        pySortKey s < pySortKey t) := by
  constructor
  · simp [pySortKey, h]
  · intro t n ht hn
    simp [pySortKey, h, ht]
    exact hn

/-- Witness for C4's amended statement at `"abc"` / `"10"`. -/
theorem sort_key_fallback_w :
    pyIntOfString "abc" = none
    ∧ pySortKey "abc" = 0
    ∧ pySortKey "abc" < pySortKey "10" := by
  have h : pyIntOfString "abc" = none := by decide
  exact ⟨h, (sort_key_fallback "abc" h).1,
    (sort_key_fallback "abc" h).2 "10" 10 (by decide) (by decide)⟩

/-- C5 counterexample: a `.csv` extension forces delimited-text parsing
even when the first (non-whitespace) character is `[`; and with content
`" x"` the first non-whitespace character is `x` yet structured parsing is
selected, because only the literal first character is inspected. -/
theorem load_format_counter :
    (specSelectsJson "[]" = true ∧ loadFormatIsCsv ".csv" "[]" = true)
    ∧ (specSelectsJson " x" = false ∧ loadFormatIsCsv ".json" " x" = false) := by
  decide

/-- C5 amended: structured (JSON) parsing is selected iff the extension is
not `.csv` and the content is empty or begins with `[`, `{` or a
whitespace character; equivalently CSV parsing is selected iff the
extension is `.csv` or the literal first character is a non-whitespace
character other than `[` and `{`. -/
theorem load_format_detection (ext content : String) :
    loadFormatIsCsv ext content = false ↔
      (ext ≠ ".csv" ∧
        ∀ c cs, content.toList = c :: cs →
          (pyIsSpace c = true ∨ c = '[' ∨ c = '{')) := by
  unfold loadFormatIsCsv firstCharStripped
  rcases h : content.toList with _ | ⟨c, cs⟩
  · simp [h]
  · by_cases hsp : pyIsSpace c = true
    · simp [h, hsp]
    · have h1 : (String.mk [c] = "[") ↔ c = '[' := by
        constructor
        · intro he
          have hd : [c] = ['['] := congrArg String.data he
          injection hd with hd1 hd2
        · intro he
          subst he
          rfl
      have h2 : (String.mk [c] = "\x7b") ↔ c = '{' := by
        constructor
        · intro he
          have hd : [c] = ['{'] := congrArg String.data he
          injection hd with hd1 hd2
        · intro he
          subst he
          rfl
      have h3 : ¬(String.mk [c] = "") := by
        intro he
        have hd : [c] = ([] : List Char) := congrArg String.data he
        cases hd
      simp only [h, hsp, if_false]
      constructor
      · intro hcsv
        rw [Bool.or_eq_false_iff] at hcsv
        obtain ⟨hA, hB⟩ := hcsv
        have hext : ext ≠ ".csv" := by
          intro hee
          rw [hee] at hA
          simp at hA
        refine ⟨hext, ?_⟩
        rintro c2 cs2 hcc
        obtain ⟨rfl, rfl⟩ : c = c2 ∧ cs = cs2 := by
          simpa using hcc
        rw [Bool.and_eq_false_iff] at hB
        rcases hB with hB | h3f
        · rw [Bool.and_eq_false_iff] at hB
          rcases hB with h1f | h2f
          · exact Or.inr (Or.inl (h1.mp (by simpa using h1f)))
          · exact Or.inr (Or.inr (h2.mp (by simpa using h2f)))
        · exact absurd (show String.mk [c] = "" by simpa using h3f) h3
      · rintro ⟨hext, hall⟩
        have hc := hall c cs rfl
        rcases hc with hc | hc | hc
        · exact absurd hc hsp
        · subst hc
          have he : String.mk ['['] = "[" := rfl
          rw [he]
          simp [hext]
        · subst hc
          have he : String.mk ['{'] = "\x7b" := rfl
          rw [he]
          simp [hext]

set_option maxRecDepth 8000 in
/-- C1 (code bug): the digest-assembly stage produces records that carry NO
importance tier at all — `EnrichedBookmark` declares no such field and
`build_enriched_bookmarks` never assigns one — so the produced record's
tier is in none of `{high, normal, low}`, and the renderer, which reads
`bm.importance` on every record of the `DigestResult`, raises
`AttributeError` on the pipeline's own output. -/
theorem enriched_importance_missing :
    buildEnrichedBookmarks oracleEmpty [bmOne] (fun _ => ([], [])) = .ok ([ebOne], (0, 0))
    ∧ ebOne.importance = none
    ∧ ebOne.importance ≠ some "high"
    ∧ ebOne.importance ≠ some "normal"
    ∧ ebOne.importance ≠ some "low"
    ∧ buildDigestBlocks digestOne = .error .attributeError := by
  refine ⟨by rfl, rfl, ?_, ?_, ?_, by rfl⟩ <;> simp [ebOne]

/-- C2 counterexample: on the completion response `"[]"` — a well-formed
JSON text — the parser of `_summarize_chunk` returns the parsed empty
array for a one-record chunk: zero entries, not one entry per record. -/
theorem chunk_parse_counter :
    parseChunkSummaries [bmOne] "[]" = Json.arr []
    ∧ ¬∃ entries, parseChunkSummaries [bmOne] "[]" = Json.arr entries
        ∧ entries.length = [bmOne].length := by
  refine ⟨rfl, ?_⟩
  rintro ⟨entries, he, hlen⟩
  rw [show parseChunkSummaries [bmOne] "[]" = Json.arr [] from rfl] at he
  injection he with harr
  rw [← harr] at hlen
  simp at hlen

/-- C2 amended: the parser is total — it never fails the chunk — and
whenever neither the fence-cleaned response text nor its first bracketed
segment parses as JSON, it returns exactly one default entry per record of
the chunk, in order, each carrying that record's id; when a parse
succeeds, the parsed value is returned as-is (with no per-record
cardinality guarantee). -/
theorem chunk_parse_fallback (bms : List Bookmark) (txt : String)
    (h1 : pyJsonLoads (String.mk (cleanResultChars txt.toList)) = none)
    (h2 : ∀ seg, bracketSlice (cleanResultChars txt.toList) = some seg →
        pyJsonLoads (String.mk seg) = none) :
    parseChunkSummaries bms txt = Json.arr (defaultChunkEntries bms)
    ∧ (defaultChunkEntries bms).length = bms.length
    ∧ (defaultChunkEntries bms).map
        (fun e => match e with
                  | Json.obj kvs => jsonObjGet kvs "id"
                  | _ => none)
        = bms.map (fun bm => some (Json.str bm.id)) := by
  refine ⟨?_, by simp [defaultChunkEntries], ?_⟩
  · cases hb : bracketSlice (cleanResultChars txt.toList) with
    | none =>
      simp only [parseChunkSummaries, h1, hb]
    | some seg =>
      simp only [parseChunkSummaries, h1, hb, h2 seg hb]
  · simp only [defaultChunkEntries, List.map_map]
    rfl

/-- Witness for C2's amended statement: a response with no parseable JSON
anywhere yields exactly the default entries for the chunk. -/
theorem chunk_parse_fallback_w :
    pyJsonLoads (String.mk (cleanResultChars "no json here".toList)) = none
    ∧ parseChunkSummaries [bmOne] "no json here" = Json.arr (defaultChunkEntries [bmOne])
    ∧ (defaultChunkEntries [bmOne]).length = [bmOne].length := by
  have h1 : pyJsonLoads (String.mk (cleanResultChars "no json here".toList)) = none := by
    rfl
  have h2 : ∀ seg, bracketSlice (cleanResultChars "no json here".toList) = some seg →
      pyJsonLoads (String.mk seg) = none := by
    intro seg hseg
    rw [show bracketSlice (cleanResultChars "no json here".toList) = none from rfl] at hseg
    exact Option.noConfusion hseg
  exact ⟨h1, (chunk_parse_fallback [bmOne] "no json here" h1 h2).1,
    (chunk_parse_fallback [bmOne] "no json here" h1 h2).2.1⟩

theorem get_enum_pair (l : List α) (i : Nat) (hi : i < l.enum.length)
    (hl : i < l.length) :
    l.enum.get ⟨i, hi⟩ = (i, l.get ⟨i, hl⟩) := by
  simp [List.enum, List.get_eq_getElem]

/-- C7: when the rendered block list exceeds the 50-block ceiling,
`send_to_slack` emits at least two messages; every message holds at most
`50 - 2` (so at most 50) blocks and is nonempty; concatenating the
messages' block lists in order reproduces the original block list; and the
fallback text of message `i` (zero based) is the digest fallback text
suffixed with `（i+1/N）`. -/
theorem slack_pagination (blocks : List Block) (fb : String)
    (h : MAX_BLOCKS_PER_MESSAGE < blocks.length) :
    2 ≤ (slackChunkMessages blocks fb).length
    ∧ (∀ m ∈ slackChunkMessages blocks fb,
        m.1.length ≤ MAX_BLOCKS_PER_MESSAGE - 2
        ∧ m.1.length ≤ MAX_BLOCKS_PER_MESSAGE
        ∧ m.1 ≠ [])
    ∧ ((slackChunkMessages blocks fb).map Prod.fst).flatten = blocks
    ∧ (∀ i, ∀ hi : i < (slackChunkMessages blocks fb).length,
        ((slackChunkMessages blocks fb).get ⟨i, hi⟩).2
          = fb ++ ("（" ++ toString (i + 1) ++ "/"
              ++ toString (slackChunkMessages blocks fb).length ++ "）")) := by
  have hn : MAX_BLOCKS_PER_MESSAGE - 2 ≠ 0 := by norm_num [MAX_BLOCKS_PER_MESSAGE]
  have hlt : MAX_BLOCKS_PER_MESSAGE - 2 < blocks.length := by
    have : (2 : Nat) ≤ MAX_BLOCKS_PER_MESSAGE := by norm_num [MAX_BLOCKS_PER_MESSAGE]
    omega
  have hmsg : slackChunkMessages blocks fb
      = (chunkList (MAX_BLOCKS_PER_MESSAGE - 2) blocks).enum.map (fun p =>
          (p.2, fb ++ (if 1 < (chunkList (MAX_BLOCKS_PER_MESSAGE - 2) blocks).length then
            "（" ++ toString (p.1 + 1) ++ "/"
              ++ toString (chunkList (MAX_BLOCKS_PER_MESSAGE - 2) blocks).length ++ "）"
          else ""))) := by
    unfold slackChunkMessages
    rw [if_neg (by omega)]
  have hchunks2 : 2 ≤ (chunkList (MAX_BLOCKS_PER_MESSAGE - 2) blocks).length :=
    two_le_length_chunkList _ blocks hn hlt
  have hlenmsg : (slackChunkMessages blocks fb).length
      = (chunkList (MAX_BLOCKS_PER_MESSAGE - 2) blocks).length := by
    rw [hmsg]
    simp [List.enum]
  refine ⟨by rw [hlenmsg]; exact hchunks2, ?_, ?_, ?_⟩
  · intro m hm
    rw [hmsg] at hm
    rcases List.mem_map.mp hm with ⟨p, hp, hfp⟩
    have hsnd : p.2 ∈ chunkList (MAX_BLOCKS_PER_MESSAGE - 2) blocks := by
      have : p.2 ∈ (chunkList (MAX_BLOCKS_PER_MESSAGE - 2) blocks).enum.map Prod.snd :=
        List.mem_map_of_mem Prod.snd hp
      rwa [List.enum, List.enumFrom_map_snd] at this
    have h1 : m.1 = p.2 := by rw [← hfp]
    refine ⟨?_, ?_, ?_⟩
    · rw [h1]
      exact length_le_of_mem_chunkList _ hn blocks p.2 hsnd
    · rw [h1]
      exact (length_le_of_mem_chunkList _ hn blocks p.2 hsnd).trans (by omega)
    · rw [h1]
      exact ne_nil_of_mem_chunkList _ hn blocks p.2 hsnd
  · rw [hmsg, List.map_map]
    have : (Prod.fst ∘ fun p : Nat × List Block =>
        (p.2, fb ++ (if 1 < (chunkList (MAX_BLOCKS_PER_MESSAGE - 2) blocks).length then
          "（" ++ toString (p.1 + 1) ++ "/"
            ++ toString (chunkList (MAX_BLOCKS_PER_MESSAGE - 2) blocks).length ++ "）"
        else ""))) = Prod.snd := rfl
    rw [this, List.enum, List.enumFrom_map_snd]
    exact join_chunkList _ hn blocks
  · intro i hi
    have hchlen : i < (chunkList (MAX_BLOCKS_PER_MESSAGE - 2) blocks).length := by
      rw [hlenmsg] at hi
      exact hi
    have hkey := List.get_of_eq hmsg ⟨i, hi⟩
    rw [hkey, List.get_map, get_enum_pair _ i _ hchlen]
    simp only []
    rw [if_pos (by omega), hlenmsg]

/-- Witness for C7 at a 51-block list. -/
theorem slack_pagination_w :
    MAX_BLOCKS_PER_MESSAGE < (List.replicate 51 Block.divider).length
    ∧ ((slackChunkMessages (List.replicate 51 Block.divider) "FB").map Prod.fst).flatten
        = List.replicate 51 Block.divider
    ∧ 2 ≤ (slackChunkMessages (List.replicate 51 Block.divider) "FB").length := by
  have h : MAX_BLOCKS_PER_MESSAGE < (List.replicate 51 Block.divider).length := by
    simp [MAX_BLOCKS_PER_MESSAGE]
  exact ⟨h, (slack_pagination _ "FB" h).2.2.1, (slack_pagination _ "FB" h).1⟩

theorem retryGo_all_fail {E A : Type} (D maxD : ℚ) (jb : Bool) (rand : Nat → ℚ)
    (f : Nat → Except E A) :
    ∀ r k, (∀ j, k ≤ j → j ≤ k + r → ∃ e, f j = Except.error e) →
      (retryGo D maxD jb rand f k r).result = f (k + r)
      ∧ (retryGo D maxD jb rand f k r).calls = r + 1
      ∧ (retryGo D maxD jb rand f k r).sleeps
          = (List.range r).map (fun j => retryDelay D maxD jb rand (k + j))
  | 0, k, hf => by
    obtain ⟨e, he⟩ := hf k (le_refl k) (by omega)
    refine ⟨?_, ?_, ?_⟩ <;> simp [retryGo, he]
  | r + 1, k, hf => by
    obtain ⟨e, he⟩ := hf k (le_refl k) (by omega)
    have ih := retryGo_all_fail D maxD jb rand f r (k + 1)
      (fun j hj1 hj2 => hf j (by omega) (by omega))
    refine ⟨?_, ?_, ?_⟩
    · simp only [retryGo, he]
      rw [ih.1]
      exact congrArg f (by omega : k + 1 + r = k + (r + 1))
    · simp only [retryGo, he]
      rw [ih.2.1]
    · simp only [retryGo, he]
      rw [ih.2.2, List.range_succ_eq_map, List.map_cons, List.map_map]
      refine congrArg₂ List.cons ?_ ?_
      · show retryDelay D maxD jb rand k = retryDelay D maxD jb rand (k + 0)
        rw [Nat.add_zero]
      · apply List.map_congr_left
        intro j _
        show retryDelay D maxD jb rand (k + 1 + j)
          = retryDelay D maxD jb rand (k + (j + 1))
        exact congrArg (retryDelay D maxD jb rand) (by omega)

theorem retryGo_succeeds {E A : Type} (D maxD : ℚ) (jb : Bool) (rand : Nat → ℚ)
    (f : Nat → Except E A) :
    ∀ t r k (v : A), t ≤ r → f (k + t) = Except.ok v →
      (∀ j, j < t → ∃ e, f (k + j) = Except.error e) →
      (retryGo D maxD jb rand f k r).result = Except.ok v
      ∧ (retryGo D maxD jb rand f k r).calls = t + 1
      ∧ (retryGo D maxD jb rand f k r).sleeps
          = (List.range t).map (fun j => retryDelay D maxD jb rand (k + j))
  | 0, r, k, v, ht, hv, hj => by
    rw [Nat.add_zero] at hv
    cases r with
    | zero => refine ⟨?_, ?_, ?_⟩ <;> simp [retryGo, hv]
    | succ r => refine ⟨?_, ?_, ?_⟩ <;> simp [retryGo, hv]
  | t + 1, r, k, v, ht, hv, hj => by
    cases r with
    | zero => omega
    | succ r =>
      obtain ⟨e, he⟩ := hj 0 (by omega)
      rw [Nat.add_zero] at he
      have ih := retryGo_succeeds D maxD jb rand f t r (k + 1) v (by omega)
        (by rw [show k + 1 + t = k + (t + 1) by omega]; exact hv)
        (fun j hjt => by
          obtain ⟨e2, he2⟩ := hj (j + 1) (by omega)
          exact ⟨e2, by rw [show k + 1 + j = k + (j + 1) by omega]; exact he2⟩)
      refine ⟨?_, ?_, ?_⟩
      · simp only [retryGo, he]
        exact ih.1
      · simp only [retryGo, he]
        rw [ih.2.1]
      · simp only [retryGo, he]
        rw [ih.2.2, List.range_succ_eq_map, List.map_cons, List.map_map]
        refine congrArg₂ List.cons ?_ ?_
        · show retryDelay D maxD jb rand k = retryDelay D maxD jb rand (k + 0)
          rw [Nat.add_zero]
        · apply List.map_congr_left
          intro j _
          show retryDelay D maxD jb rand (k + 1 + j)
            = retryDelay D maxD jb rand (k + (j + 1))
          exact congrArg (retryDelay D maxD jb rand) (by omega)

/-- C8 counterexample: with `max_retries = 1` and an always-failing call,
the wrapper makes `2` attempts — `range(max_retries + 1)` — before
re-raising, not `1`; re-raising after "R failed attempts" as claimed would
mean a single attempt here. -/
theorem with_retry_attempts_counter :
    (withRetry 1 5 60 false randZero fFail).calls = 2
    ∧ (withRetry 1 5 60 false randZero fFail).calls ≠ 1
    ∧ (withRetry 1 5 60 false randZero fFail).result = Except.error 0 := by
  refine ⟨rfl, by decide, rfl⟩

/-- C8 amended: the wrapper makes up to `R + 1` attempts (the initial call
plus `R` retries).  Each failed attempt `k` with `k < R` sleeps
`min(D * 2^k, maxDelay)` multiplied by the jitter factor
`0.5 + random()*0.5 ∈ [0.5, 1)` when jitter is enabled (factor `1`
otherwise); a success at any attempt `k ≤ R` returns that attempt's value
after `k` sleeps; when all `R + 1` attempts fail, the last failure is
re-raised unchanged; and every jittered sleep lies between half the
un-jittered delay and the un-jittered delay. -/
theorem with_retry_behavior {E A : Type} (R : Nat) (D maxD : ℚ) (jb : Bool)
    (rand : Nat → ℚ) (f : Nat → Except E A)
    (hr : ∀ k, 0 ≤ rand k ∧ rand k < 1) (hD : 0 ≤ D) (hM : 0 ≤ maxD) :
    ((∀ k, k ≤ R → ∃ e, f k = Except.error e) →
      (withRetry R D maxD jb rand f).result = f R
      ∧ (withRetry R D maxD jb rand f).calls = R + 1
      ∧ (withRetry R D maxD jb rand f).sleeps
          = (List.range R).map (retryDelay D maxD jb rand))
    ∧ (∀ k v, k ≤ R → f k = Except.ok v →
        (∀ j, j < k → ∃ e, f j = Except.error e) →
        (withRetry R D maxD jb rand f).result = Except.ok v
        ∧ (withRetry R D maxD jb rand f).calls = k + 1
        ∧ (withRetry R D maxD jb rand f).sleeps
            = (List.range k).map (retryDelay D maxD jb rand))
    ∧ (∀ k, jb = true →
        1/2 * min (D * 2 ^ k) maxD ≤ retryDelay D maxD jb rand k
        ∧ retryDelay D maxD jb rand k ≤ min (D * 2 ^ k) maxD) := by
  refine ⟨?_, ?_, ?_⟩
  · intro hf
    have h := retryGo_all_fail D maxD jb rand f R 0
      (fun j hj1 hj2 => hf j (by omega))
    refine ⟨by simpa [withRetry] using h.1, by simpa [withRetry] using h.2.1, ?_⟩
    rw [withRetry, h.2.2]
    apply List.map_congr_left
    intro j _
    rw [Nat.zero_add]
  · intro k v hk hv hj
    have h := retryGo_succeeds D maxD jb rand f k R 0 v hk
      (by rw [Nat.zero_add]; exact hv)
      (fun j hjk => by rw [Nat.zero_add]; exact hj j hjk)
    refine ⟨by simpa [withRetry] using h.1, by simpa [withRetry] using h.2.1, ?_⟩
    rw [withRetry, h.2.2]
    apply List.map_congr_left
    intro j _
    rw [Nat.zero_add]
  · intro k hjb
    have hm : (0 : ℚ) ≤ min (D * 2 ^ k) maxD := by
      apply le_min
      · positivity
      · exact hM
    obtain ⟨hr0, hr1⟩ := hr k
    rw [retryDelay, hjb]
    simp only [if_true]
    constructor
    · have : (1 : ℚ)/2 ≤ 1/2 + rand k * (1/2) := by nlinarith
      nlinarith
    · have : (1 : ℚ)/2 + rand k * (1/2) ≤ 1 := by nlinarith
      nlinarith

/-- Witness for C8's amended statement: `R = 1`, failure at attempt 0,
success at attempt 1, jitter on with `random() = 0`. -/
theorem with_retry_behavior_w :
    (∀ k, 0 ≤ randZero k ∧ randZero k < 1)
    ∧ (withRetry 1 5 60 true randZero fRetry).result = Except.ok 7
    ∧ (withRetry 1 5 60 true randZero fRetry).calls = 1 + 1
    ∧ (withRetry 1 5 60 true randZero fRetry).sleeps
        = (List.range 1).map (retryDelay 5 60 true randZero) := by
  have hr : ∀ k, 0 ≤ randZero k ∧ randZero k < 1 := by
    intro k
    constructor <;> norm_num [randZero]
  have h := (with_retry_behavior 1 5 60 true randZero fRetry hr
    (by norm_num) (by norm_num)).2.1 1 7 (le_refl 1) rfl
    (fun j hj => by
      interval_cases j
      exact ⟨0, rfl⟩)
  exact ⟨hr, h.1, h.2.1, h.2.2⟩

theorem pipelineDeliver_send_failure (env : RunEnv)
    (enriched : List EnrichedBookmark) (usage : Nat × Nat)
    (h : (pipelineDeliver env enriched usage).sendErrored = true) :
    (pipelineDeliver env enriched usage).exitCode = 1
    ∧ (pipelineDeliver env enriched usage).finalWatermark = env.processedIds
    ∧ (pipelineDeliver env enriched usage).saveInvoked = false := by
  unfold pipelineDeliver at h ⊢
  rcases hs : (if env.dryRun then (Except.ok true : Except PyErr Bool)
      else sendToSlack env.post (pipelineResult env enriched usage)) with e | b
  · exact ⟨rfl, rfl, rfl⟩
  · rw [hs] at h
    rcases hc : saveDigestCache (pipelineResult env enriched usage) with e2 | u
    · rw [hc] at h
      exact Bool.noConfusion h
    · rw [hc] at h
      exact Bool.noConfusion h

/-- C6: in every run in which the Slack delivery step raises — the
`send_to_slack` call returns an exception rather than succeeding — the run
exits with status 1, `save_processed_ids` is never invoked, and the
persisted watermark file keeps exactly its previous content. -/
theorem send_failure_preserves_watermark (env : RunEnv)
    (h : (runDigest env).sendErrored = true) :
    (runDigest env).exitCode = 1
    ∧ (runDigest env).finalWatermark = env.processedIds
    ∧ (runDigest env).saveInvoked = false := by
  unfold runDigest at h ⊢
  by_cases h0 : (env.allBookmarks.filter
      (fun bm => !env.processedIds.contains bm.id)).isEmpty = true
  · rw [if_pos h0] at h
    exact Bool.noConfusion h
  · rw [if_neg h0] at h ⊢
    rcases hbe : buildEnrichedBookmarks env.oracle (pipelineCapped env)
        (pipelineEnrichData env (pipelineCapped env)) with e | p
    · first
      | exact Bool.noConfusion h
      | (rw [hbe] at h; exact Bool.noConfusion h)
    · obtain ⟨enriched, usage⟩ := p
      first
      | exact pipelineDeliver_send_failure env enriched usage h
      | (rw [hbe] at h; exact pipelineDeliver_send_failure env enriched usage h)

set_option maxRecDepth 8000 in
/-- Witness for C6: a run whose Slack send raises (here because the block
build inside `send_to_slack` raises on the missing importance attribute)
fails with the watermark untouched. -/
theorem send_failure_preserves_watermark_w :
    (runDigest envOne).sendErrored = true
    ∧ (runDigest envOne).exitCode = 1
    ∧ (runDigest envOne).finalWatermark = envOne.processedIds
    ∧ (runDigest envOne).saveInvoked = false := by
  have h : (runDigest envOne).sendErrored = true := by rfl
  have h2 := send_failure_preserves_watermark envOne h
  exact ⟨h, h2.1, h2.2.1, h2.2.2⟩

theorem lookup_keyed_map {β : Type} (val : Bookmark → β) :
    ∀ (l : List Bookmark) (bm : Bookmark), bm ∈ l →
      ∃ v, (l.map (fun b => (b.id, val b))).lookup bm.id = some v
  | [], bm, hbm => absurd hbm (List.not_mem_nil bm)
  | b :: bs, bm, hbm => by
    by_cases hid : (bm.id == b.id) = true
    · exact ⟨val b, by simp [List.lookup, hid]⟩
    · have hbm2 : bm ∈ bs := by
        rcases List.mem_cons.mp hbm with rfl | hm
        · exact absurd (beq_self_eq_true bm.id) hid
        · exact hm
      obtain ⟨v, hv⟩ := lookup_keyed_map val bs bm hbm2
      exact ⟨v, by simp only [List.map_cons, List.lookup, hid]; exact hv⟩

theorem lookup_keyed_map_eq {β : Type} (val : Bookmark → β) :
    ∀ (l : List Bookmark) (bm : Bookmark), bm ∈ l →
      (l.map (fun b => b.id)).Nodup →
      (l.map (fun b => (b.id, val b))).lookup bm.id = some (val bm)
  | [], bm, hbm, _ => absurd hbm (List.not_mem_nil bm)
  | b :: bs, bm, hbm, hnd => by
    rcases List.mem_cons.mp hbm with rfl | hm
    · simp [List.lookup]
    · have hne : (bm.id == b.id) = false := by
        rw [beq_eq_false_iff_ne]
        intro he
        have hin : b.id ∈ bs.map (fun b => b.id) :=
          he ▸ List.mem_map_of_mem (fun b => b.id) hm
        rw [List.map_cons, List.nodup_cons] at hnd
        exact hnd.1 hin
      rw [List.map_cons, List.nodup_cons] at hnd
      simp only [List.map_cons, List.lookup, hne]
      exact lookup_keyed_map_eq val bs bm hm hnd.2

/-- C9: `enrich_all_bookmarks` returns a map with an entry for every input
record's identifier; with distinct identifiers, a record whose enrichment
call raises maps to the empty result `([], [])` and every other record
maps to its own call's value — one failure never aborts the batch. -/
theorem enrich_all_total (g : Bookmark → Except PyErr (List String × List WebResult))
    (bms : List Bookmark) :
    (∀ bm ∈ bms, ∃ v, pyDictGet (enrichAllBookmarks g bms) bm.id = some v)
    ∧ ((bms.map (fun b => b.id)).Nodup →
        ∀ bm ∈ bms,
          pyDictGet (enrichAllBookmarks g bms) bm.id
            = some (match g bm with
                    | Except.ok v => v
                    | Except.error _ => ([], []))) := by
  constructor
  · intro bm hbm
    unfold pyDictGet enrichAllBookmarks
    rw [← List.map_reverse]
    exact lookup_keyed_map _ bms.reverse bm (List.mem_reverse.mpr hbm)
  · intro hnd bm hbm
    unfold pyDictGet enrichAllBookmarks
    rw [← List.map_reverse]
    apply lookup_keyed_map_eq
    · exact List.mem_reverse.mpr hbm
    · rw [List.map_reverse]
      exact List.nodup_reverse.mpr hnd

/-- Witness for C9: with the first record's enrichment raising and the
second succeeding, the first maps to the empty result and the second to
its own value. -/
theorem enrich_all_total_w :
    ([bmNineA, bmNineB].map (fun b => b.id)).Nodup
    ∧ pyDictGet (enrichAllBookmarks gNine [bmNineA, bmNineB]) bmNineA.id = some ([], [])
    ∧ pyDictGet (enrichAllBookmarks gNine [bmNineA, bmNineB]) bmNineB.id = some (["k"], []) := by
  have hnd : ([bmNineA, bmNineB].map (fun b => b.id)).Nodup := by
    decide
  refine ⟨hnd, ?_, ?_⟩
  · exact (enrich_all_total gNine [bmNineA, bmNineB]).2 hnd bmNineA (by simp)
  · exact (enrich_all_total gNine [bmNineA, bmNineB]).2 hnd bmNineB (by simp)

set_option maxRecDepth 8000 in
/-- C10 (code bug): the cap itself works — with `max_items = 1` and two new
records only the first is enriched, summarized and assembled into the
digest — but the claimed delivery and watermark merge never happen: the
run dies with `AttributeError` on the missing importance attribute (in
`send_to_slack`, and in `_save_digest_cache` even under `--dry-run`), so
`save_processed_ids` is never reached and the watermark file keeps its
previous content on every run. -/
theorem run_cap_no_watermark_update :
    pipelineCapped envCap = [bmOne]
    ∧ (runDigest envCap).digestIds = ["111"]
    ∧ (runDigest envCap).exitCode = 1
    ∧ (runDigest envCap).saveInvoked = false
    ∧ (runDigest envCap).finalWatermark = envCap.processedIds
    ∧ (runDigest envCapDry).exitCode = 1
    ∧ (runDigest envCapDry).saveInvoked = false := by
  exact ⟨rfl, rfl, rfl, rfl, rfl, rfl, rfl⟩

/-- Witness for C5's amended statement: a non-`.csv` file starting with
`[` goes to the JSON parser; the amended rule applied at concrete inputs. -/
theorem load_format_detection_w :
    loadFormatIsCsv ".json" "[1]" = false
    ∧ loadFormatIsCsv ".csv" "[1]" = true := by
  constructor
  · exact (load_format_detection ".json" "[1]").mpr
      ⟨by decide, fun c cs hcc => by
        have h1 : c = '[' := by
          have he : "[1]".toList = ['[', '1', ']'] := by decide
          have hd : c :: cs = ['[', '1', ']'] := hcc.symm.trans he
          injection hd with hd1 hd2
        exact Or.inr (Or.inl h1)⟩
  · decide


end XBookmark
